import Mathlib

/-!
Shallow embedding of `tools/validate-commit.py` (a commit-message validator).

Strings are modelled as `List Char`; Python string methods are modelled by
small executable helpers (`pyLower`, `pyStrip`, `pySplitChar`, `pySplitlines`,
…) restricted to the ASCII / CR-LF behaviour the tool relies on.  Side effects
(printing) are dropped except where a claim is about them: `verify_name`
additionally returns its "warning emitted" flag and the driver records which
paths print the identity-onboarding instructions.  The two external
subprocesses are injected: `git stripspace` as a fallible normalizer
`List Char → Option (List Char)` and `git show` as a `QueryOutcome`.
-/

/-- Convenience: the character list of a string literal. -/
def chars (s : String) : List Char := s.data

/-- Python `str.isspace` membership for the characters relevant here
(space, tab, LF, CR, vertical tab, form feed). -/
def pyIsSpace (c : Char) : Bool :=
  c = ' ' || c = '\t' || c = '\n' || c = '\r' || c = Char.ofNat 11 || c = Char.ofNat 12

/-- Python `str.isdigit`, restricted to ASCII digits. -/
def pyIsDigit (c : Char) : Bool := c.isDigit

/-- Python `str.lower`, restricted to ASCII case mapping. -/
def pyLower (l : List Char) : List Char := l.map Char.toLower

/-- Python `str.strip()`: remove leading and trailing whitespace. -/
def pyStrip (l : List Char) : List Char :=
  ((l.dropWhile pyIsSpace).reverse.dropWhile pyIsSpace).reverse

/-- Python `str.split(sep)` for a one-character separator `c`: the list of
(possibly empty) fields between occurrences of `c`.  Always nonempty, like
Python's (`''.split('@') == ['']`). -/
def pySplitChar (c : Char) : List Char → List (List Char)
  | [] => [[]]
  | x :: xs =>
    if x = c then [] :: pySplitChar c xs
    else
      match pySplitChar c xs with
      | h :: t => (x :: h) :: t
      | [] => [[x]]

/-- Python `str.rstrip('\r\n')`: remove every trailing CR or LF character. -/
def rstripCRLF (l : List Char) : List Char :=
  (l.reverse.dropWhile (fun c => c = '\r' || c = '\n')).reverse

/-- Worker for `pySplitlines`: `cur` is the current line, reversed. -/
def pySplitlinesAux (cur : List Char) : List Char → List (List Char)
  | [] => if cur.isEmpty then [] else [cur.reverse]
  | '\r' :: '\n' :: rest => (cur.reverse ++ ['\r', '\n']) :: pySplitlinesAux [] rest
  | '\n' :: rest => (cur.reverse ++ ['\n']) :: pySplitlinesAux [] rest
  | '\r' :: rest => (cur.reverse ++ ['\r']) :: pySplitlinesAux [] rest
  | c :: rest => pySplitlinesAux (c :: cur) rest

/-- Python `str.splitlines(True)` restricted to the LF / CR / CR-LF line
terminators: split into lines, keeping the terminators. -/
def pySplitlines (l : List Char) : List (List Char) := pySplitlinesAux [] l

/-- Python substring containment `needle in hay`. -/
def containsSub (needle hay : List Char) : Bool := decide (needle <:+: hay)

/-- The denylist of `verify_name` (the Python tuple `forbidden_names`). -/
def forbidden_names : List (List Char) :=
  [chars "unknown", chars "root", chars "user", chars "your name"]

/-- Embedding of `verify_name`.  First component: the returned boolean.
Second component: whether the advisory no-space warning (which also prints the
git identity instructions) was emitted. -/
def verify_name (name : List Char) : Bool × Bool :=
  let n := pyStrip (pyLower name)
  if n ∈ forbidden_names then (false, false)
  else (true, !n.contains ' ')

/-- The host-side checks of `verify_email` (`tld = host.split('.')[-1]`),
in the early-return order of the source. -/
def host_checks (host : List Char) : Bool :=
  if containsSub (chars "local") ((pySplitChar '.' host).getLastD []) then false
  else if !((pySplitChar '.' host).getLastD []).isEmpty &&
      ((pySplitChar '.' host).getLastD []).all pyIsDigit then false
  else if (chars ".wireshark.org").isSuffixOf host then false
  else if host = chars "example.com" then false
  else if containsSub (chars "(none)") host then false
  else true

/-- Embedding of `verify_email`.  The normalized address must split on `'@'`
into exactly two parts, and the host must pass the tld / denylist checks. -/
def verify_email (email : List Char) : Bool :=
  match pySplitChar '@' (pyStrip (pyLower email)) with
  | [_user, host] => host_checks host
  | _ => false

/-- The loop guard of `extract_subject`: the string starts with `Revert "`
and ends with `"`. -/
def revertCondB (l : List Char) : Bool :=
  (chars "Revert \"").isPrefixOf l && (chars "\"").isSuffixOf l

/-- The `while` loop of `extract_subject`, with explicit fuel: while the
guard holds, drop the 8-character `Revert "` wrapper and the trailing quote
(`subject[8:-1]`).  Each iteration shortens the string by at least 8
characters, so `l.length` fuel always suffices (proved below). -/
def unwrapRevertFuel : Nat → List Char → List Char
  | 0, l => l
  | Nat.succ n, l =>
    if revertCondB l then unwrapRevertFuel n ((l.drop 8).dropLast) else l

/-- The `while` loop of `extract_subject`, run to completion. -/
def unwrapRevert (l : List Char) : List Char := unwrapRevertFuel l.length l

/-- Embedding of `extract_subject`: strip trailing CR/LF, then unwrap nested
`Revert "…"` wrappers. -/
def extract_subject (subject : List Char) : List Char :=
  unwrapRevert (rstripCRLF subject)

/-- Python `line.startswith('Bug:') or line.startswith('Ping-Bug:')`. -/
def line_is_bug (l : List Char) : Bool :=
  (chars "Bug:").isPrefixOf l || (chars "Ping-Bug:").isPrefixOf l

/-- The blank-line-after-subject violation of `verify_body`:
`len(old_lines) >= 2 and old_lines[1].strip()`. -/
def blank_line_missing : List (List Char) → Bool
  | _ :: l1 :: _ => !(pyStrip l1).isEmpty
  | _ => false

/-- The subject-length violation of `verify_body`:
`len(extract_subject(old_lines[0])) > 80`. -/
def subject_too_long : List (List Char) → Bool
  | l0 :: _ => decide ((extract_subject l0).length > 80)
  | [] => false

/-- The `is_good` flag of `verify_body` after checks 1 and 2. -/
def body_checks (old_lines : List (List Char)) : Bool :=
  !blank_line_missing old_lines && !subject_too_long old_lines

/-- Embedding of `verify_body`.  `normalize` injects `git stripspace`
(`none` models an `OSError` when invoking it).  The result is `none` exactly
when `old_lines[0]` raises `IndexError`, i.e. on the empty body. -/
def verify_body (normalize : List Char → Option (List Char))
    (body : List Char) : Option Bool :=
  match pySplitlines body with
  | [] => none
  | l0 :: rest =>
    let old_lines := l0 :: rest
    let is_good := body_checks old_lines
    if old_lines.any line_is_bug then some false
    else
      match normalize body with
      | none => some is_good
      | some newbody => if newbody = body then some is_good else some false

/-- The driver's post-query trailing-newline fixup:
`if output.endswith('\n\n'): output = output[:-1]`. -/
def preprocess (output : List Char) : List Char :=
  if (chars "\n\n").isSuffixOf output then output.dropLast else output

/-- Split at the first occurrence of `c`; `none` when `c` does not occur. -/
def splitOnce (c : Char) : List Char → Option (List Char × List Char)
  | [] => none
  | x :: xs =>
    if x = c then some ([], xs)
    else
      match splitOnce c xs with
      | some (a, b) => some (x :: a, b)
      | none => none

/-- The driver's `output.split('\n', 3)` together with the 4-way unpacking:
`none` models the `ValueError` when fewer than 4 fields result. -/
def split4 (output : List Char) :
    Option (List Char × List Char × List Char × List Char) :=
  match splitOnce '\n' output with
  | none => none
  | some (abbr, r1) =>
    match splitOnce '\n' r1 with
    | none => none
    | some (an, r2) =>
      match splitOnce '\n' r2 with
      | none => none
      | some (ae, body) => some (abbr, an, ae, body)

/-- The Commit Fetcher's parse of the `git show` output. -/
def parse_output (output : List Char) :
    Option (List Char × List Char × List Char × List Char) :=
  split4 (preprocess output)

/-- Observable outcome of one run of `main` (exit code plus which of the two
call sites of `print_git_user_instructions` fired). -/
structure RunResult where
  exit_code : Int
  /-- Instructions printed by `main` itself (`if exit_code:` after the name
  and email checks). -/
  driver_instructions : Bool
  /-- Instructions printed inside `verify_name`'s no-space advisory warning. -/
  warning_instructions : Bool
  deriving DecidableEq, Repr

/-- Embedding of `main` after a successful query: parse the output, run the
three validators, accumulate the exit code.  `none` models an uncaught
exception (`ValueError` from unpacking, or `IndexError` on an empty body). -/
def main_exit (normalize : List Char → Option (List Char))
    (output : List Char) : Option RunResult :=
  match parse_output output with
  | none => none
  | some (_abbr, author_name, author_email, body) =>
    let nameRes := verify_name author_name
    let emailOK := verify_email author_email
    match verify_body normalize body with
    | none => none
    | some bodyOK =>
      some { exit_code := if nameRes.1 && emailOK && bodyOK then 0 else 1
             driver_instructions := !nameRes.1 || !emailOK
             warning_instructions := nameRes.2 }

/-- Outcome of the `git show` subprocess, as seen by the top-level
`try`/`except` block. -/
inductive QueryOutcome where
  | ok (output : List Char)
  | calledProcessError (returncode : Int)
  | interrupted
  deriving DecidableEq

/-- Embedding of the module entry point (`sys.exit(main())` with its
exception handlers): a failed query propagates the tool's exit code, an
interrupt yields 130. -/
def run_script (normalize : List Char → Option (List Char)) :
    QueryOutcome → Option Int
  | .ok output => (main_exit normalize output).map (fun r => r.exit_code)
  | .calledProcessError rc => some rc
  | .interrupted => some 130

/-! ## Helper lemmas -/
theorem revertCondB_length {l : List Char} (h : revertCondB l = true) : 8 ≤ l.length := by
  have hp : (chars "Revert \"") <+: l ∧ (chars "\"") <:+ l := by
    simpa [revertCondB] using h
  have h8 : (chars "Revert \"").length = 8 := rfl
  exact h8 ▸ hp.1.length_le

theorem unwrapRevertFuel_stop {l : List Char} (h : revertCondB l = false) :
    ∀ n, unwrapRevertFuel n l = l := by
  intro n
  cases n with
  | zero => rfl
  | succ n => simp [unwrapRevertFuel, h]

theorem unwrapRevertFuel_enough :
    ∀ (n : Nat) (l : List Char), l.length ≤ n →
      revertCondB (unwrapRevertFuel n l) = false := by
  intro n
  induction n with
  | zero =>
    intro l hl
    have : l = [] := List.length_eq_zero.mp (Nat.le_zero.mp hl)
    subst this
    decide
  | succ n ih =>
    intro l hl
    by_cases hc : revertCondB l
    · have h8 := revertCondB_length hc
      have hlen : ((l.drop 8).dropLast).length = l.length - 8 - 1 := by simp
      simp only [unwrapRevertFuel, hc, if_true]
      exact ih _ (by omega)
    · rw [unwrapRevertFuel_stop (by simpa using hc)]
      simpa using hc

theorem unwrapRevertFuel_irrel :
    ∀ (n m : Nat) (l : List Char), l.length ≤ n → l.length ≤ m →
      unwrapRevertFuel n l = unwrapRevertFuel m l := by
  intro n
  induction n with
  | zero =>
    intro m l hn _
    have : l = [] := List.length_eq_zero.mp (Nat.le_zero.mp hn)
    subst this
    rw [unwrapRevertFuel_stop (by decide) 0, unwrapRevertFuel_stop (by decide) m]
  | succ n ih =>
    intro m l hn hm
    by_cases hc : revertCondB l
    · have h8 := revertCondB_length hc
      have hlen : ((l.drop 8).dropLast).length = l.length - 8 - 1 := by simp
      cases m with
      | zero => omega
      | succ m =>
        simp only [unwrapRevertFuel, hc, if_true]
        exact ih _ _ (by omega) (by omega)
    · rw [unwrapRevertFuel_stop (by simpa using hc), unwrapRevertFuel_stop (by simpa using hc)]
theorem pySplitlinesAux_eq_nil :
    ∀ cur l, pySplitlinesAux cur l = [] → cur = [] ∧ l = [] := by
  intro cur l
  induction cur, l using pySplitlinesAux.induct with
  | case1 cur hc => exact fun _ => ⟨List.isEmpty_iff.mp hc, rfl⟩
  | case2 cur hc => simp [pySplitlinesAux, hc]
  | case3 cur rest ih => simp [pySplitlinesAux]
  | case4 cur rest ih => simp [pySplitlinesAux]
  | case5 cur rest hne ih =>
    rw [pySplitlinesAux.eq_def]
    split <;> try simp_all
    rename_i hc1 hc2 heq
    exact absurd heq.1.symm hc2
  | case6 cur c rest h1 h2 h3 ih =>
    intro h
    rw [pySplitlinesAux.eq_def] at h
    split at h <;> simp_all

theorem pySplitlines_ne_nil {l : List Char} (h : l ≠ []) : pySplitlines l ≠ [] :=
  fun hc => h (pySplitlinesAux_eq_nil [] l hc).2

theorem splitOnce_append (c : Char) :
    ∀ (a rest : List Char), c ∉ a → splitOnce c (a ++ c :: rest) = some (a, rest) := by
  intro a
  induction a with
  | nil => intro rest _; simp [splitOnce]
  | cons x xs ih =>
    intro rest h
    have hx : ¬(x = c) := fun hxc => h (hxc ▸ List.mem_cons_self x xs)
    have hxs : c ∉ xs := fun hm => h (List.mem_cons_of_mem x hm)
    simp [splitOnce, hx, ih rest hxs]

theorem rstripCRLF_concat_quote (X : List Char) :
    rstripCRLF (X ++ chars "\"") = X ++ chars "\"" := by
  have hq : chars "\"" = ['"'] := rfl
  rw [hq]
  simp [rstripCRLF, List.dropWhile]

theorem verify_body_of_checks_false
    (f : List Char → Option (List Char)) (body l0 : List Char)
    (rest : List (List Char)) (h : pySplitlines body = l0 :: rest)
    (hbad : body_checks (l0 :: rest) = false) :
    verify_body f body = some false := by
  by_cases hb : (l0 :: rest).any line_is_bug
  · simp [verify_body, h, hb]
  · cases hf : f body with
    | none => simp [verify_body, h, hb, hf, hbad]
    | some nb =>
      by_cases hnb : nb = body <;> simp [verify_body, h, hb, hf, hnb, hbad]

theorem containsSub_iff {n h : List Char} : containsSub n h = true ↔ n <:+: h := by
  simp [containsSub]

theorem digit_check_iff (tld : List Char) :
    (!tld.isEmpty && tld.all pyIsDigit) = true ↔
      (tld ≠ [] ∧ ∀ c ∈ tld, pyIsDigit c = true) := by
  simp [List.all_eq_true, List.isEmpty_iff]

theorem host_checks_iff (host : List Char) :
    host_checks host = true ↔
      (¬ (chars "local") <:+: ((pySplitChar '.' host).getLastD []) ∧
       ¬ ((pySplitChar '.' host).getLastD [] ≠ [] ∧
           ∀ c ∈ (pySplitChar '.' host).getLastD [], pyIsDigit c = true) ∧
       ¬ (chars ".wireshark.org") <:+ host ∧
       host ≠ chars "example.com" ∧
       ¬ (chars "(none)") <:+: host) := by
  unfold host_checks
  split_ifs with h1 h2 h3 h4 h5
  · simp only [Bool.false_eq_true, false_iff, not_and]
    intro p1
    exact absurd (containsSub_iff.mp h1) p1
  · simp only [Bool.false_eq_true, false_iff]
    rintro ⟨-, p2, -⟩
    exact p2 ((digit_check_iff _).mp h2)
  · simp only [Bool.false_eq_true, false_iff]
    rintro ⟨-, -, p3, -⟩
    exact p3 (List.isSuffixOf_iff_suffix.mp h3)
  · simp only [Bool.false_eq_true, false_iff]
    rintro ⟨-, -, -, p4, -⟩
    exact p4 h4
  · simp only [Bool.false_eq_true, false_iff]
    rintro ⟨-, -, -, -, p5⟩
    exact p5 (containsSub_iff.mp h5)
  · simp only [true_iff]
    refine ⟨?_, ?_, ?_, h4, ?_⟩
    · exact fun p => h1 (containsSub_iff.mpr p)
    · exact fun p => h2 ((digit_check_iff _).mpr p)
    · exact fun p => h3 (List.isSuffixOf_iff_suffix.mpr p)
    · exact fun p => h5 (containsSub_iff.mpr p)

/-- The Email Validator contract as the specification states it. -/
def email_spec (email : List Char) : Prop :=
  ∃ u host, pySplitChar '@' (pyStrip (pyLower email)) = [u, host] ∧
    ¬ (chars "local") <:+: ((pySplitChar '.' host).getLastD []) ∧
    ¬ ((pySplitChar '.' host).getLastD [] ≠ [] ∧
        ∀ c ∈ (pySplitChar '.' host).getLastD [], pyIsDigit c = true) ∧
    ¬ (chars ".wireshark.org") <:+ host ∧
    host ≠ chars "example.com" ∧
    ¬ (chars "(none)") <:+: host

/-- C1: `verify_email` accepts exactly the addresses satisfying `email_spec`. -/
theorem verify_email_spec :
    (∀ email : List Char, verify_email email = true ↔ email_spec email) ∧
    verify_email (chars "x@code.wireshark.org") = false ∧
    verify_email (chars "a@example.com") = false ∧
    verify_email (chars "u@host.local") = false ∧
    verify_email (chars "u@192.168.1.1") = false ∧
    verify_email (chars "u@host.(none)") = false ∧
    verify_email (chars "noatsign") = false ∧
    verify_email (chars "dev@realmail.org") = true := by
  refine ⟨?_, by decide, by decide, by decide, by decide, by decide, by decide, by decide⟩
  intro email
  unfold email_spec
  rcases h : pySplitChar '@' (pyStrip (pyLower email)) with _ | ⟨u, t⟩
  · simp [verify_email, h]
  · rcases t with _ | ⟨host, t2⟩
    · simp [verify_email, h]
    · rcases t2 with _ | ⟨x, t3⟩
      · have hv : verify_email email = host_checks host := by simp [verify_email, h]
        rw [hv, host_checks_iff]
        constructor
        · intro hc
          exact ⟨u, host, rfl, hc⟩
        · rintro ⟨u', host', heq, hc⟩
          obtain ⟨rfl, rfl⟩ : u = u' ∧ host = host' := by simpa using heq
          exact hc
      · simp [verify_email, h]

/-- C2: a body with a line starting in `Bug:` or `Ping-Bug:` fails
`verify_body` outright, and the result does not depend on the injected
normalizer (the whitespace-normalization step is never consulted). -/
theorem verify_body_bug_short_circuit
    (f g : List Char → Option (List Char)) (body : List Char)
    (hbug : (pySplitlines body).any line_is_bug = true) :
    verify_body f body = some false ∧ verify_body f body = verify_body g body := by
  rcases h : pySplitlines body with _ | ⟨l0, rest⟩
  · rw [h] at hbug
    simp at hbug
  · rw [h] at hbug
    constructor <;> simp [verify_body, h, hbug]

/-- Witness for C2 on the body `"Bug: 1234\n"`, with a failing and a
succeeding normalizer. -/
theorem verify_body_bug_short_circuit_witness :
    verify_body (fun _ => none) (chars "Bug: 1234\n") = some false ∧
    verify_body (fun _ => none) (chars "Bug: 1234\n") =
      verify_body (fun s => some s) (chars "Bug: 1234\n") :=
  verify_body_bug_short_circuit _ _ _ (by decide)

/-- C4: `verify_body` fails whenever the second line exists and is non-blank,
and whenever the first line's cleaned subject is longer than 80 characters. -/
theorem verify_body_checks_fail :
    (∀ (f : List Char → Option (List Char)) (body l0 l1 : List Char)
       (rest : List (List Char)),
       pySplitlines body = l0 :: l1 :: rest →
       (pyStrip l1).isEmpty = false →
       verify_body f body = some false) ∧
    (∀ (f : List Char → Option (List Char)) (body l0 : List Char)
       (rest : List (List Char)),
       pySplitlines body = l0 :: rest →
       80 < (extract_subject l0).length →
       verify_body f body = some false) := by
  constructor
  · intro f body l0 l1 rest h hl1
    apply verify_body_of_checks_false f body l0 (l1 :: rest) h
    simp [body_checks, blank_line_missing, hl1]
  · intro f body l0 rest h hlen
    apply verify_body_of_checks_false f body l0 rest h
    simp [body_checks, subject_too_long, hlen]

/-- Witness for C4: a two-line body with non-blank second line, and a body
whose only line is 90 characters. -/
theorem verify_body_checks_fail_witness :
    verify_body (fun s => some s) (chars "subject\nnonblank\n") = some false ∧
    verify_body (fun s => some s) (List.replicate 90 'a') = some false := by
  constructor
  · exact verify_body_checks_fail.1 _ _ (chars "subject\n") (chars "nonblank\n") []
      (by decide) (by decide)
  · exact verify_body_checks_fail.2 _ _ (List.replicate 90 'a') []
      (by decide) (by decide)

/-- C7: when the normalizer cannot be invoked (`none`), `verify_body` does
not abort: it returns exactly the pass/fail state computed by the blank-line
and subject-length checks. -/
theorem verify_body_normalizer_failure
    (f : List Char → Option (List Char)) (body l0 : List Char)
    (rest : List (List Char))
    (h : pySplitlines body = l0 :: rest)
    (hbug : (l0 :: rest).any line_is_bug = false)
    (hf : f body = none) :
    verify_body f body = some (body_checks (l0 :: rest)) := by
  simp [verify_body, h, hbug, hf]

/-- Witness for C7 on the well-formed body `"ok\n"` with an unavailable
normalizer. -/
theorem verify_body_normalizer_failure_witness :
    verify_body (fun _ => none) (chars "ok\n") = some (body_checks [chars "ok\n"]) :=
  verify_body_normalizer_failure _ _ (chars "ok\n") [] (by decide) (by decide) rfl

/-- C9: for an idempotent normalizer, a body that is a fixed point of the
normalizer, has a blank or absent second line, a cleaned subject of at most
80 characters, and no `Bug:`/`Ping-Bug:` line always passes `verify_body`. -/
theorem verify_body_normalized_passes
    (f : List Char → Option (List Char)) (body l0 : List Char)
    (rest : List (List Char))
    (_hidem : ∀ s t, f s = some t → f t = some t)
    (hfix : f body = some body)
    (h : pySplitlines body = l0 :: rest)
    (hblank : blank_line_missing (l0 :: rest) = false)
    (hlong : subject_too_long (l0 :: rest) = false)
    (hbug : (l0 :: rest).any line_is_bug = false) :
    verify_body f body = some true := by
  simp [verify_body, h, hbug, hfix, body_checks, hblank, hlong]

/-- Witness for C9: the identity normalizer (idempotent) on the body
`"ok\n"`. -/
theorem verify_body_normalized_passes_witness :
    verify_body (fun s => some s) (chars "ok\n") = some true :=
  verify_body_normalized_passes _ _ (chars "ok\n") [] (fun _ _ _ => rfl) rfl
    (by decide) (by decide) (by decide) (by decide)

/-- C10: `verify_body` is partial at the public interface: on the empty
body, `splitlines` yields `[]` and the access to the first line is out of
bounds (`none` models the `IndexError`); on every non-empty body the result
is defined. -/
theorem verify_body_empty_partial :
    (∀ f : List Char → Option (List Char), verify_body f (chars "") = none) ∧
    (∀ (f : List Char → Option (List Char)) (body : List Char),
       body ≠ [] → (verify_body f body).isSome = true) := by
  constructor
  · intro f
    rfl
  · intro f body hb
    rcases h : pySplitlines body with _ | ⟨l0, rest⟩
    · exact absurd h (pySplitlines_ne_nil hb)
    · by_cases hc : (l0 :: rest).any line_is_bug
      · simp [verify_body, h, hc]
      · cases hf : f body with
        | none => simp [verify_body, h, hc, hf]
        | some nb =>
          by_cases hnb : nb = body <;> simp [verify_body, h, hc, hf, hnb]

/-- Witness for C10's non-empty side, at the one-line body `"x"`. -/
theorem verify_body_empty_partial_witness :
    (verify_body (fun s => some s) (chars "x")).isSome = true :=
  verify_body_empty_partial.2 _ (chars "x") (by decide)

theorem revertCondB_concat (t : List Char) :
    revertCondB (chars "Revert \"" ++ t ++ chars "\"") = true := by
  have h1 : (chars "Revert \"").isPrefixOf
      (chars "Revert \"" ++ t ++ chars "\"") = true := by
    rw [List.append_assoc]
    exact List.isPrefixOf_iff_prefix.mpr (List.prefix_append _ _)
  have h2 : (chars "\"").isSuffixOf
      (chars "Revert \"" ++ t ++ chars "\"") = true :=
    List.isSuffixOf_iff_suffix.mpr (List.suffix_append _ _)
  unfold revertCondB
  rw [h1, h2]
  rfl

theorem unwrap_concat (t : List Char) :
    unwrapRevert (chars "Revert \"" ++ t ++ chars "\"") = unwrapRevert t := by
  have hlen : (chars "Revert \"" ++ t ++ chars "\"").length = t.length + 9 := by
    simp [chars]
  have hdrop : (((chars "Revert \"" ++ t ++ chars "\"").drop 8).dropLast) = t := by
    rw [List.append_assoc]
    rw [show (8 : Nat) = (chars "Revert \"").length from rfl, List.drop_left]
    rw [show chars "\"" = ['"'] from rfl]
    exact List.dropLast_concat
  unfold unwrapRevert
  rw [hlen]
  have : unwrapRevertFuel (t.length + 9) (chars "Revert \"" ++ t ++ chars "\"") =
      unwrapRevertFuel (t.length + 8) t := by
    simp only [unwrapRevertFuel, revertCondB_concat, if_true, hdrop]
  rw [this]
  exact unwrapRevertFuel_irrel _ _ t (by omega) le_rfl

/-- C6: `extract_subject` strips trailing CR/LF and then unwraps
`Revert "…"` wrappers until none is left: the result never both starts with
`Revert "` and ends with `"`; an input with no wrapper (after
trailing-CR/LF stripping) is returned unchanged apart from that stripping;
wrapping adds nothing (so nested wrappers unwrap fully, e.g. the
double-wrapped example below). -/
theorem extract_subject_spec :
    (∀ s : List Char, revertCondB (extract_subject s) = false) ∧
    (∀ s : List Char, revertCondB (rstripCRLF s) = false →
       extract_subject s = rstripCRLF s) ∧
    (∀ t : List Char, rstripCRLF t = t →
       extract_subject (chars "Revert \"" ++ t ++ chars "\"") =
         extract_subject t) ∧
    extract_subject (chars "Revert \"Revert \"fix: bug\"\"\n") = chars "fix: bug" := by
  refine ⟨?_, ?_, ?_, by decide⟩
  · intro s
    exact unwrapRevertFuel_enough _ _ le_rfl
  · intro s h
    unfold extract_subject unwrapRevert
    exact unwrapRevertFuel_stop h _
  · intro t ht
    unfold extract_subject
    rw [rstripCRLF_concat_quote (chars "Revert \"" ++ t), ht, unwrap_concat]

/-- Witness for C6 at the unwrapped subject `"plain subject\r\n"` and at the
wrapped subject `Revert "x"`. -/
theorem extract_subject_spec_witness :
    extract_subject (chars "plain subject\r\n") = rstripCRLF (chars "plain subject\r\n") ∧
    extract_subject (chars "Revert \"" ++ chars "x" ++ chars "\"") =
      extract_subject (chars "x") :=
  ⟨extract_subject_spec.2.1 _ (by decide),
   extract_subject_spec.2.2.1 (chars "x") (by decide)⟩

/-- C8: the Commit Fetcher's parse strips exactly one trailing newline
exactly when the output ends in the extra blank line (`"\n\n"`), and then
splits on the first three newlines into four fields, everything after the
third newline (embedded newlines included) becoming the body. -/
theorem parse_output_spec :
    (∀ output : List Char, parse_output output = split4 (preprocess output)) ∧
    (∀ output : List Char, (chars "\n\n").isSuffixOf output = true →
       preprocess output = output.dropLast) ∧
    (∀ output : List Char, (chars "\n\n").isSuffixOf output = false →
       preprocess output = output) ∧
    (∀ a n e b : List Char, '\n' ∉ a → '\n' ∉ n → '\n' ∉ e →
       split4 (a ++ '\n' :: (n ++ '\n' :: (e ++ '\n' :: b))) =
         some (a, n, e, b)) := by
  refine ⟨fun _ => rfl, ?_, ?_, ?_⟩
  · intro output h
    simp [preprocess, h]
  · intro output h
    simp [preprocess, h]
  · intro a n e b ha hn he
    simp [split4, splitOnce_append '\n' a _ ha, splitOnce_append '\n' n _ hn,
      splitOnce_append '\n' e _ he]

/-- Witness for C8: one output with the extra blank line, one without, and
one four-field split whose body contains an embedded newline. -/
theorem parse_output_spec_witness :
    preprocess (chars "a\n\n") = (chars "a\n\n").dropLast ∧
    preprocess (chars "a\nb") = chars "a\nb" ∧
    split4 (chars "id" ++ '\n' :: (chars "Jane" ++ '\n' ::
        (chars "j@x" ++ '\n' :: chars "body\nmore"))) =
      some (chars "id", chars "Jane", chars "j@x", chars "body\nmore") :=
  ⟨parse_output_spec.2.1 _ (by decide), parse_output_spec.2.2.1 _ (by decide),
   parse_output_spec.2.2.2 _ _ _ _ (by decide) (by decide) (by decide)⟩

/-- C3 counterexample: with author name `"jdoe"` and email
`"dev@realmail.org"` every check passes (exit code 0), yet the identity
onboarding instructions are printed — by `verify_name`'s no-space advisory
warning, not by the driver — so "instructions are printed exactly when the
name or email check failed" is false as stated. -/
theorem main_instructions_counterexample :
    (verify_name (chars "jdoe")).1 = true ∧
    verify_email (chars "dev@realmail.org") = true ∧
    main_exit (fun s => some s) (chars "abc\njdoe\ndev@realmail.org\nok\n\n") =
      some { exit_code := 0, driver_instructions := false,
             warning_instructions := true } :=
  ⟨by decide, by decide, by decide⟩

/-- C3 (amended): on a successfully fetched and parsed commit the driver
exits 0 exactly when all three validators pass and 1 otherwise, the
driver's own onboarding-instruction printout happens exactly when the name
or email check failed (`verify_name`'s advisory warning may print the same
instructions separately), a failed query propagates the tool's exit code,
and an interrupt exits 130. -/
theorem main_exit_spec
    (f : List Char → Option (List Char)) (out a n e b : List Char)
    (bodyOK : Bool)
    (hparse : parse_output out = some (a, n, e, b))
    (hbody : verify_body f b = some bodyOK) :
    main_exit f out = some
      { exit_code := if (verify_name n).1 && verify_email e && bodyOK then 0 else 1
        driver_instructions := !(verify_name n).1 || !(verify_email e)
        warning_instructions := (verify_name n).2 } ∧
    ((if (verify_name n).1 && verify_email e && bodyOK then (0 : Int) else 1) = 0 ↔
      ((verify_name n).1 = true ∧ verify_email e = true ∧ bodyOK = true)) ∧
    ((if (verify_name n).1 && verify_email e && bodyOK then (0 : Int) else 1) = 1 ↔
      ¬((verify_name n).1 = true ∧ verify_email e = true ∧ bodyOK = true)) ∧
    ((!(verify_name n).1 || !(verify_email e)) = true ↔
      ((verify_name n).1 = false ∨ verify_email e = false)) ∧
    run_script f (.ok out) =
      some (if (verify_name n).1 && verify_email e && bodyOK then 0 else 1) ∧
    (∀ rc : Int, run_script f (.calledProcessError rc) = some rc) ∧
    run_script f .interrupted = some 130 := by
  refine ⟨by simp [main_exit, hparse, hbody], ?_, ?_, ?_,
    by simp [run_script, main_exit, hparse, hbody], fun _ => rfl, rfl⟩
  · cases hvn : (verify_name n).1 <;> cases hve : verify_email e <;>
      cases bodyOK <;> simp
  · cases hvn : (verify_name n).1 <;> cases hve : verify_email e <;>
      cases bodyOK <;> simp
  · cases hvn : (verify_name n).1 <;> cases hve : verify_email e <;> simp

/-- Witness for C3 (amended) on a passing commit, a failed query with exit
code 128, and an interrupt. -/
theorem main_exit_spec_witness :
    main_exit (fun s => some s) (chars "abc\nJane Doe\nj@x.org\nok\n\n") =
      some { exit_code := if (verify_name (chars "Jane Doe")).1 &&
                 verify_email (chars "j@x.org") && true then 0 else 1
             driver_instructions := !(verify_name (chars "Jane Doe")).1 ||
               !(verify_email (chars "j@x.org"))
             warning_instructions := (verify_name (chars "Jane Doe")).2 } ∧
    run_script (fun s => some s) (.calledProcessError 128) = some 128 ∧
    run_script (fun s => some s) .interrupted = some 130 :=
  have h := main_exit_spec (fun s => some s) _ (chars "abc") (chars "Jane Doe")
    (chars "j@x.org") (chars "ok\n") true (by decide) (by decide)
  ⟨h.1, h.2.2.2.2.2.1 128, h.2.2.2.2.2.2⟩

/-- C5: `verify_name` returns `false` exactly when the lower-cased, trimmed
name is one of the four denylisted names; every other name is accepted, and
the no-space warning is advisory only (the boolean result is determined by
the denylist membership alone): `"jdoe"` is accepted with a warning,
`"Jane Doe"` without one. -/
theorem verify_name_spec :
    (∀ name : List Char,
      ((verify_name name).1 = false ↔ pyStrip (pyLower name) ∈ forbidden_names)) ∧
    (∀ name : List Char,
      (verify_name name).1 = (!decide (pyStrip (pyLower name) ∈ forbidden_names))) ∧
    (verify_name (chars "unknown")).1 = false ∧
    (verify_name (chars "Root")).1 = false ∧
    (verify_name (chars " USER ")).1 = false ∧
    (verify_name (chars "Your Name")).1 = false ∧
    verify_name (chars "jdoe") = (true, true) ∧
    verify_name (chars "Jane Doe") = (true, false) := by
  refine ⟨?_, ?_, by decide, by decide, by decide, by decide, by decide, by decide⟩
  · intro name
    by_cases h : pyStrip (pyLower name) ∈ forbidden_names <;> simp [verify_name, h]
  · intro name
    by_cases h : pyStrip (pyLower name) ∈ forbidden_names <;> simp [verify_name, h]
